import Mathlib

/-!
Verification of the dex-v4 settlement core: a shallow embedding of the
`SweepFees` and `Settle` instruction handlers, and of the instruction
wire format, together with proofs of the specification's claims.

Accounts are modelled at the value level: an account's backing storage
holds the decoded record (a `DexState` or a `UserAccount`) rather than
raw bytes, and a borsh serialize/deserialize round trip is the identity
on that value.  Cross-program invocations of the token program are
modelled by a `Transfer` record and an oracle `transfer_ok` describing
whether the external token program accepts the transfer.  A Rust
`unwrap()` on an `Err` is a panic, which aborts the call without a
surfaced error code; this is the `panicked` outcome below, kept distinct
from a surfaced `err`.
-/

namespace Dex

/-- A Solana account address (32 bytes), modelled as a natural number. -/
abbrev Pubkey := Nat

/-- The metadata of an account passed to an instruction: its address, its
signer flag and its owning program. -/
structure AccountInfo where
  key : Pubkey
  is_signer : Bool
  owner : Pubkey
deriving DecidableEq

/-- The fixed address of the SPL token program (a distinguished constant). -/
def spl_token_ID : Pubkey := 999

/-- Modelled from the spec: the account tag discriminating record kinds in
`state.rs` (not under src/). -/
inductive AccountTag
  | Uninitialized
  | DexState
  | UserAccount
deriving DecidableEq

/-- The typed domain errors of `error.rs` (the variants used by the
`SweepFees` handler). -/
inductive DexError
  | InvalidMarketSignerAccount
  | InvalidSplTokenProgram
  | InvalidStateAccountOwner
  | InvalidQuoteVaultAccount
  | InvalidMarketAdminAccount
  | NoOp
deriving DecidableEq

/-- The `ProgramError` values produced by the two handlers. `TransferFailed`
stands for an error returned by the external token program during an
invoked transfer. -/
inductive ProgramError
  | NotEnoughAccountKeys
  | MissingRequiredSignature
  | InvalidArgument
  | InvalidSeeds
  | InvalidAccountData
  | TransferFailed
  | Custom (e : DexError)
deriving DecidableEq

/-- Modelled from the spec: the market record of `state.rs` (not under
src/) — admin identity, authority bump (`signer_nonce`), vault addresses,
linked matching-program and orderbook addresses, accumulated fee counter. -/
structure DexState where
  tag : AccountTag
  signer_nonce : Nat
  base_vault : Pubkey
  quote_vault : Pubkey
  orderbook : Pubkey
  aaob_program : Pubkey
  admin : Pubkey
  accumulated_fees : Nat
deriving DecidableEq

/-- Modelled from the spec: the user record header of `state.rs` (not under
src/) — owner identity, market back-reference, free/locked balances and
open-order bookkeeping. -/
structure UserAccountHeader where
  tag : AccountTag
  owner : Pubkey
  market : Pubkey
  base_token_free : Nat
  base_token_locked : Nat
  quote_token_free : Nat
  quote_token_locked : Nat
  number_of_orders : Nat
deriving DecidableEq

/-- The user record (header view of the user account's backing storage). -/
structure UserAccount where
  header : UserAccountHeader
deriving DecidableEq

/-- An authority-signed SPL token transfer invoked by a handler: source and
destination token accounts, the signing authority, the amount, and the
seeds (market address, bump byte) passed to `invoke_signed`. -/
structure Transfer where
  source : Pubkey
  destination : Pubkey
  authority : Pubkey
  amount : Nat
  seed_market : Pubkey
  seed_nonce : Nat
deriving DecidableEq

/-- `Pubkey::create_program_address` as an abstract deterministic function
of (market address bytes, bump byte, program identity); `none` models the
host rejecting the seeds. -/
abbrev Cpa := Pubkey → Nat → Pubkey → Option Pubkey

/-- Outcome of running a handler, carrying the effects (account writes and
invoked transfers) performed up to the exit point: `ok` is a normal
return, `err` a surfaced `ProgramError`, `panicked` an abort with no
surfaced code (a Rust `unwrap()` on an `Err`). -/
inductive RunResult (σ : Type)
  | ok (s : σ)
  | err (e : ProgramError) (s : σ)
  | panicked (s : σ)
deriving DecidableEq

/-- The effects a run has performed up to its exit point. -/
def effectsOf {σ : Type} : RunResult σ → σ
  | .ok s => s
  | .err _ s => s
  | .panicked s => s

/-- The state the enclosing transaction commits: the run's effects on a
normal return, the initial state on any abort (the ledger reverts the
whole call). -/
def committed {σ : Type} (init : σ) : RunResult σ → σ
  | .ok s => s
  | .err _ _ => init
  | .panicked _ => init

/-- Result of a fallible sub-step that can also panic. -/
inductive PResult (α : Type)
  | ok (a : α)
  | err (e : ProgramError)
  | panicked
deriving DecidableEq

/-- Modelled from the spec: `DexState::get` of `state.rs` (not under src/) —
deserializes the market record from the account's backing storage and
checks its account tag, returning a mutable (write-through) view. -/
def DexState.get (market_data : DexState) : Except ProgramError DexState :=
  if market_data.tag = AccountTag.DexState then .ok market_data
  else .error .InvalidAccountData

/-- Modelled from the spec: `DexState::check` of `state.rs` (not under
src/) — validates the account tag of a freshly deserialized market
record. -/
def DexState.check (market_data : DexState) : Except ProgramError DexState :=
  if market_data.tag = AccountTag.DexState then .ok market_data
  else .error .InvalidAccountData

/-- Modelled from the spec: `UserAccount::parse` of `state.rs` (not under
src/) — deserializes the user record header and checks its account tag. -/
def UserAccount.parse (user_data : UserAccount) : Except ProgramError UserAccount :=
  if user_data.header.tag = AccountTag.UserAccount then .ok user_data
  else .error .InvalidAccountData

namespace sweep_fees

/-- Modelled from the spec: `utils::check_signer` of the program crate (not
under src/) — fails with the signer error when the account's signer flag
is absent. -/
def check_signer (a : AccountInfo) : Except ProgramError Unit :=
  if a.is_signer then .ok () else .error .MissingRequiredSignature

/-- Modelled from the spec: `utils::check_account_key` of the program crate
(not under src/) — compares the account's address against an expected
key and fails with the supplied domain error on mismatch. -/
def check_account_key (a : AccountInfo) (key : Pubkey) (e : DexError) :
    Except ProgramError Unit :=
  if a.key = key then .ok () else .error (.Custom e)

/-- Modelled from the spec: `utils::check_account_owner` of the program
crate (not under src/) — checks that a stateful account is owned by this
program. -/
def check_account_owner (a : AccountInfo) (owner : Pubkey) (e : DexError) :
    Except ProgramError Unit :=
  if a.owner = owner then .ok () else .error (.Custom e)

/-- The typed account view of the `SweepFees` instruction
(`sweep_fees.rs`, `struct Accounts`). -/
structure Accounts where
  market : AccountInfo
  market_signer : AccountInfo
  market_admin : AccountInfo
  quote_vault : AccountInfo
  destination_token_account : AccountInfo
  spl_token_program : AccountInfo
deriving DecidableEq

/-- `Accounts::parse` of `sweep_fees.rs`: binds the six positional
accounts, then checks the admin signer flag, the SPL token program
identity, and the market account's program ownership, in that order. -/
def Accounts.parse (program_id : Pubkey) (accounts : List AccountInfo) :
    Except ProgramError Accounts :=
  match accounts with
  | market :: market_signer :: market_admin :: quote_vault ::
      destination_token_account :: spl_token_program :: _ =>
    match check_signer market_admin with
    | .error e => .error e
    | .ok _ =>
      match check_account_key spl_token_program spl_token_ID
          DexError.InvalidSplTokenProgram with
      | .error e => .error e
      | .ok _ =>
        match check_account_owner market program_id
            DexError.InvalidStateAccountOwner with
        | .error e => .error e
        | .ok _ =>
          .ok ⟨market, market_signer, market_admin, quote_vault,
            destination_token_account, spl_token_program⟩
  | _ => .error .NotEnoughAccountKeys

/-- `check_accounts` of `sweep_fees.rs`: recomputes the market signer from
(market address, stored bump cast to a byte, program id) and compares it,
then checks the quote vault and admin against the market record. -/
def check_accounts (program_id : Pubkey) (cpa : Cpa) (market_state : DexState)
    (a : Accounts) : Except ProgramError Unit :=
  match cpa a.market.key (market_state.signer_nonce % 256) program_id with
  | none => .error .InvalidSeeds
  | some market_signer =>
    match check_account_key a.market_signer market_signer
        DexError.InvalidMarketSignerAccount with
    | .error e => .error e
    | .ok _ =>
      match check_account_key a.quote_vault market_state.quote_vault
          DexError.InvalidQuoteVaultAccount with
      | .error e => .error e
      | .ok _ =>
        check_account_key a.market_admin market_state.admin
          DexError.InvalidMarketAdminAccount

/-- The persistent effects of a `SweepFees` run: the market record (held by
a write-through view) and the successfully invoked transfers, in order. -/
structure Effects where
  market : DexState
  transfers : List Transfer
deriving DecidableEq

/-- `process` of `sweep_fees.rs`: parse accounts, load the market record,
run `check_accounts`, build the fee transfer, fail with `NoOp` when
`accumulated_fees` is zero, otherwise invoke the authority-signed
transfer and zero the fee counter. -/
def process (program_id : Pubkey) (cpa : Cpa) (transfer_ok : Transfer → Bool)
    (accounts : List AccountInfo) (market_data : DexState) :
    RunResult Effects :=
  let init : Effects := ⟨market_data, []⟩
  match Accounts.parse program_id accounts with
  | .error e => .err e init
  | .ok a =>
    match DexState.get market_data with
    | .error e => .err e init
    | .ok market_state =>
      match check_accounts program_id cpa market_state a with
      | .error e => .err e init
      | .ok _ =>
        let transfer_instruction : Transfer :=
          ⟨a.quote_vault.key, a.destination_token_account.key,
            a.market_signer.key, market_state.accumulated_fees,
            a.market.key, market_state.signer_nonce % 256⟩
        if market_state.accumulated_fees = 0 then
          .err (.Custom .NoOp) init
        else if transfer_ok transfer_instruction then
          .ok ⟨{ market_state with accumulated_fees := 0 },
            [transfer_instruction]⟩
        else
          .err .TransferFailed init

end sweep_fees

namespace settle

/-- Modelled from the spec: `utils::check_signer` of the src crate (not
under src/) — fails with the signer error when the account's signer flag
is absent. -/
def check_signer (a : AccountInfo) : Except ProgramError Unit :=
  if a.is_signer then .ok () else .error .MissingRequiredSignature

/-- Modelled from the spec: `utils::check_account_key` of the src crate
(not under src/) — compares the account's address against an expected key
and fails with `InvalidArgument` on mismatch. -/
def check_account_key (a : AccountInfo) (key : Pubkey) :
    Except ProgramError Unit :=
  if a.key = key then .ok () else .error .InvalidArgument

/-- The typed account view of the `Settle` instruction (`settle.rs`,
`struct Accounts`). -/
structure Accounts where
  aaob_program : AccountInfo
  spl_token_program : AccountInfo
  market : AccountInfo
  base_vault : AccountInfo
  quote_vault : AccountInfo
  market_signer : AccountInfo
  user : AccountInfo
  user_owner : AccountInfo
  destination_base_account : AccountInfo
  destination_quote_account : AccountInfo
deriving DecidableEq

/-- `Accounts::parse` of `settle.rs`: binds the ten positional accounts,
then runs `check_signer(user_owner).unwrap()` and
`check_account_key(spl_token_program, spl_token::ID).unwrap()` — a failed
check panics (aborts with no surfaced error code) instead of returning
the error. -/
def Accounts.parse (_program_id : Pubkey) (accounts : List AccountInfo) :
    PResult Accounts :=
  match accounts with
  | aaob_program :: spl_token_program :: market :: base_vault ::
      quote_vault :: market_signer :: user :: user_owner ::
      destination_base_account :: destination_quote_account :: _ =>
    match check_signer user_owner with
    | .error _ => .panicked
    | .ok _ =>
      match check_account_key spl_token_program spl_token_ID with
      | .error _ => .panicked
      | .ok _ =>
        .ok ⟨aaob_program, spl_token_program, market, base_vault,
          quote_vault, market_signer, user, user_owner,
          destination_base_account, destination_quote_account⟩
  | _ => .err .NotEnoughAccountKeys

/-- `Accounts::load_user_account` of `settle.rs`: parses the user record
and fails with `InvalidArgument` when its stored owner differs from the
supplied owner wallet or its stored market back-reference differs from
the supplied market account. -/
def Accounts.load_user_account (a : Accounts) (user_data : UserAccount) :
    Except ProgramError UserAccount :=
  match UserAccount.parse user_data with
  | .error e => .error e
  | .ok user_account =>
    if user_account.header.owner ≠ a.user_owner.key then
      .error .InvalidArgument
    else if user_account.header.market ≠ a.market.key then
      .error .InvalidArgument
    else
      .ok user_account

/-- `check_accounts` of `settle.rs`: recomputes the market signer from
(market address, stored bump, program id) — propagating a derivation
failure as an error — then compares the market signer, base vault, quote
vault and AAOB program accounts with `.unwrap()`, so any mismatch
panics. -/
def check_accounts (program_id : Pubkey) (cpa : Cpa) (market_state : DexState)
    (a : Accounts) : PResult Unit :=
  match cpa a.market.key (market_state.signer_nonce % 256) program_id with
  | none => .err .InvalidSeeds
  | some market_signer =>
    match check_account_key a.market_signer market_signer with
    | .error _ => .panicked
    | .ok _ =>
      match check_account_key a.base_vault market_state.base_vault with
      | .error _ => .panicked
      | .ok _ =>
        match check_account_key a.quote_vault market_state.quote_vault with
        | .error _ => .panicked
        | .ok _ =>
          match check_account_key a.aaob_program market_state.aaob_program with
          | .error _ => .panicked
          | .ok _ => .ok ()

/-- The persistent effects of a `Settle` run: the market account's record,
the user account's record, and the successfully invoked transfers, in
order. -/
structure Effects where
  market : DexState
  user : UserAccount
  transfers : List Transfer
deriving DecidableEq

/-- `process` of `settle.rs`: parse accounts, deserialize and check the
market record, load and validate the user record, serialize the
(unmodified) market record back into the market account, run
`check_accounts(..).unwrap()` (a failed check panics), invoke the
quote-free transfer then the base-free transfer, then zero both free
fields and write the user record back. -/
def process (program_id : Pubkey) (cpa : Cpa) (transfer_ok : Transfer → Bool)
    (accounts : List AccountInfo) (market_data : DexState)
    (user_data : UserAccount) : RunResult Effects :=
  let init : Effects := ⟨market_data, user_data, []⟩
  match Accounts.parse program_id accounts with
  | .panicked => .panicked init
  | .err e => .err e init
  | .ok a =>
    match DexState.check market_data with
    | .error e => .err e init
    | .ok market_state =>
      match a.load_user_account user_data with
      | .error e => .err e init
      | .ok user_account =>
        let eff1 : Effects := ⟨market_state, user_data, []⟩
        match check_accounts program_id cpa market_state a with
        | .err _ => .panicked eff1
        | .panicked => .panicked eff1
        | .ok _ =>
          let transfer_quote_instruction : Transfer :=
            ⟨market_state.quote_vault, a.destination_quote_account.key,
              a.market_signer.key, user_account.header.quote_token_free,
              a.market.key, market_state.signer_nonce % 256⟩
          if transfer_ok transfer_quote_instruction then
            let eff2 : Effects :=
              ⟨market_state, user_data, [transfer_quote_instruction]⟩
            let transfer_base_instruction : Transfer :=
              ⟨market_state.base_vault, a.destination_base_account.key,
                a.market_signer.key, user_account.header.base_token_free,
                a.market.key, market_state.signer_nonce % 256⟩
            if transfer_ok transfer_base_instruction then
              .ok ⟨market_state,
                ⟨{ user_account.header with
                    quote_token_free := 0, base_token_free := 0 }⟩,
                [transfer_quote_instruction, transfer_base_instruction]⟩
            else
              .err .TransferFailed eff2
          else
            .err .TransferFailed eff1

end settle

/-- The instruction opcode enum of `instruction.rs` (`enum DexInstruction`),
with implicit C-like discriminants 0..8. -/
inductive DexInstruction
  | CreateMarket
  | NewOrder
  | CancelOrder
  | ConsumeEvents
  | Settle
  | InitializeAccount
  | SweepFees
  | CloseAccount
  | CloseMarket
deriving DecidableEq

/-- The discriminant of a `DexInstruction` variant (`*self as u64`). -/
def DexInstruction.tagOf : DexInstruction → Nat
  | .CreateMarket => 0
  | .NewOrder => 1
  | .CancelOrder => 2
  | .ConsumeEvents => 3
  | .Settle => 4
  | .InitializeAccount => 5
  | .SweepFees => 6
  | .CloseAccount => 7
  | .CloseMarket => 8

/-- The eight little-endian bytes of a `u64` (`bytes_of(&(x as u64))`). -/
def u64_le_bytes (n : Nat) : List Nat :=
  [n % 256, n / 256 % 256, n / 256 ^ 2 % 256, n / 256 ^ 3 % 256,
    n / 256 ^ 4 % 256, n / 256 ^ 5 % 256, n / 256 ^ 6 % 256,
    n / 256 ^ 7 % 256]

/-- `DexInstruction::serialize` of `instruction.rs`: the eight
little-endian bytes of the variant's discriminant cast to `u64`, followed
by the densely packed (`Pod`) parameter record, here given by its byte
representation. -/
def DexInstruction.serialize (i : DexInstruction) (params : List Nat) :
    List Nat :=
  u64_le_bytes i.tagOf ++ params

/-- An account slot of a built instruction (`AccountMeta`). -/
structure AccountMeta where
  pubkey : Pubkey
  is_signer : Bool
  is_writable : Bool
deriving DecidableEq

/-- `AccountMeta::new`: a writable, optionally signing slot. -/
def AccountMeta.mk_new (pubkey : Pubkey) (is_signer : Bool) : AccountMeta :=
  ⟨pubkey, is_signer, true⟩

/-- `AccountMeta::new_readonly`: a read-only, optionally signing slot. -/
def AccountMeta.new_readonly (pubkey : Pubkey) (is_signer : Bool) :
    AccountMeta :=
  ⟨pubkey, is_signer, false⟩

/-- A built instruction: target program, positional account slots, and the
serialized data. -/
structure Instruction where
  program_id : Pubkey
  accounts : List AccountMeta
  data : List Nat
deriving DecidableEq

namespace instruction

/-- The `settle` instruction builder of `instruction.rs`: serializes the
`Settle` variant with an empty (`()`) payload. -/
def settle (dex_program_id market_account market_signer base_vault
    quote_vault user_account user_account_owner destination_base_account
    destination_quote_account : Pubkey) : Instruction :=
  { program_id := dex_program_id
    accounts :=
      [AccountMeta.new_readonly spl_token_ID false,
        AccountMeta.new_readonly market_account false,
        AccountMeta.mk_new base_vault false,
        AccountMeta.mk_new quote_vault false,
        AccountMeta.new_readonly market_signer false,
        AccountMeta.mk_new user_account false,
        AccountMeta.new_readonly user_account_owner true,
        AccountMeta.mk_new destination_base_account false,
        AccountMeta.mk_new destination_quote_account false]
    data := DexInstruction.Settle.serialize [] }

/-- The `sweep_fees` instruction builder of `instruction.rs`: serializes
the `SweepFees` variant with an empty (`()`) payload. -/
def sweep_fees (dex_program_id market_account market_signer market_admin
    quote_vault destination_token_account : Pubkey) : Instruction :=
  { program_id := dex_program_id
    accounts :=
      [AccountMeta.mk_new market_account false,
        AccountMeta.new_readonly market_signer false,
        AccountMeta.new_readonly market_admin true,
        AccountMeta.mk_new quote_vault false,
        AccountMeta.mk_new destination_token_account false,
        AccountMeta.new_readonly spl_token_ID false]
    data := DexInstruction.SweepFees.serialize [] }

/-- The `close_account` instruction builder of `instruction.rs`: serializes
the `CloseAccount` variant with an empty (`()`) payload. -/
def close_account (dex_program_id user_account user_account_owner
    target_lamports_account : Pubkey) : Instruction :=
  { program_id := dex_program_id
    accounts :=
      [AccountMeta.mk_new user_account false,
        AccountMeta.new_readonly user_account_owner true,
        AccountMeta.mk_new target_lamports_account false]
    data := DexInstruction.CloseAccount.serialize [] }

/-- The `close_market` instruction builder of `instruction.rs`.  As in the
source, its data is `DexInstruction::CloseAccount.serialize(())` — the
`CloseAccount` variant's tag, not `CloseMarket`'s. -/
def close_market (dex_program_id market base_vault quote_vault market_signer
    orderbook event_queue bids asks aaob_program market_admin
    target_lamports_account : Pubkey) : Instruction :=
  { program_id := dex_program_id
    accounts :=
      [AccountMeta.mk_new market false,
        AccountMeta.mk_new base_vault false,
        AccountMeta.mk_new quote_vault false,
        AccountMeta.mk_new market_signer false,
        AccountMeta.mk_new orderbook false,
        AccountMeta.mk_new event_queue false,
        AccountMeta.mk_new bids false,
        AccountMeta.mk_new asks false,
        AccountMeta.new_readonly aaob_program false,
        AccountMeta.new_readonly market_admin true,
        AccountMeta.mk_new target_lamports_account false]
    data := DexInstruction.CloseAccount.serialize [] }

end instruction

/-! ### Concrete fixtures used by the witness theorems -/

/-- A concrete program identity. -/
def pidX : Pubkey := 7

/-- A concrete injective derivation function standing for
`create_program_address`. -/
def cpaX : Cpa := fun market_key nonce program_id =>
  some (market_key * 1000000 + nonce * 1000 + program_id)

/-- A transfer oracle under which every invoked transfer succeeds. -/
def tokX : Transfer → Bool := fun _ => true

/-- A transfer oracle under which only the quote-free transfer of `userX`
succeeds (amount 200) and the base-free transfer (amount 50) fails. -/
def tokQuoteOnlyX : Transfer → Bool := fun t => t.amount = 200

/-- A concrete market record with nonzero accumulated fees. -/
def marketX : DexState :=
  ⟨AccountTag.DexState, 5, 21, 22, 23, 24, 25, 1000000⟩

/-- `marketX` with its fee counter zeroed. -/
def marketZeroX : DexState := { marketX with accumulated_fees := 0 }

/-- The authority address `cpaX` derives for `marketX` under `pidX`. -/
def signerKeyX : Pubkey := 11005007

/-- A concrete account list for `SweepFees` that passes every check. -/
def sweepAccsX : List AccountInfo :=
  [⟨11, false, 7⟩, ⟨signerKeyX, false, 0⟩, ⟨25, true, 0⟩, ⟨22, false, 0⟩,
    ⟨31, false, 0⟩, ⟨spl_token_ID, false, 0⟩]

/-- The typed view `Accounts::parse` produces from `sweepAccsX`. -/
def sweepAX : sweep_fees.Accounts :=
  ⟨⟨11, false, 7⟩, ⟨signerKeyX, false, 0⟩, ⟨25, true, 0⟩, ⟨22, false, 0⟩,
    ⟨31, false, 0⟩, ⟨spl_token_ID, false, 0⟩⟩

/-- A concrete account list for `Settle` that passes every check. -/
def settleAccsX : List AccountInfo :=
  [⟨24, false, 0⟩, ⟨spl_token_ID, false, 0⟩, ⟨11, false, 7⟩, ⟨21, false, 0⟩,
    ⟨22, false, 0⟩, ⟨signerKeyX, false, 0⟩, ⟨41, false, 7⟩, ⟨42, true, 0⟩,
    ⟨43, false, 0⟩, ⟨44, false, 0⟩]

/-- The typed view `Accounts::parse` produces from `settleAccsX`. -/
def settleAX : settle.Accounts :=
  ⟨⟨24, false, 0⟩, ⟨spl_token_ID, false, 0⟩, ⟨11, false, 7⟩, ⟨21, false, 0⟩,
    ⟨22, false, 0⟩, ⟨signerKeyX, false, 0⟩, ⟨41, false, 7⟩, ⟨42, true, 0⟩,
    ⟨43, false, 0⟩, ⟨44, false, 0⟩⟩

/-- `settleAccsX` with the user-owner's signer flag absent. -/
def settleAccsNoSignerX : List AccountInfo :=
  [⟨24, false, 0⟩, ⟨spl_token_ID, false, 0⟩, ⟨11, false, 7⟩, ⟨21, false, 0⟩,
    ⟨22, false, 0⟩, ⟨signerKeyX, false, 0⟩, ⟨41, false, 7⟩, ⟨42, false, 0⟩,
    ⟨43, false, 0⟩, ⟨44, false, 0⟩]

/-- `settleAccsX` with a wrong SPL token program account. -/
def settleAccsBadSplX : List AccountInfo :=
  [⟨24, false, 0⟩, ⟨998, false, 0⟩, ⟨11, false, 7⟩, ⟨21, false, 0⟩,
    ⟨22, false, 0⟩, ⟨signerKeyX, false, 0⟩, ⟨41, false, 7⟩, ⟨42, true, 0⟩,
    ⟨43, false, 0⟩, ⟨44, false, 0⟩]

/-- A concrete user record with `base_token_free = 50` and
`quote_token_free = 200`, belonging to owner 42 on market 11. -/
def userX : UserAccount := ⟨⟨AccountTag.UserAccount, 42, 11, 50, 0, 200, 0, 0⟩⟩

/-- `userX` with both free balances already zero. -/
def userZeroX : UserAccount :=
  ⟨⟨AccountTag.UserAccount, 42, 11, 0, 0, 0, 0, 0⟩⟩

/-- A user record whose stored owner (43) differs from the supplied owner
wallet (42). -/
def userWrongOwnerX : UserAccount :=
  ⟨⟨AccountTag.UserAccount, 43, 11, 50, 0, 200, 0, 0⟩⟩

/-- The effects a successful `Settle` run on `marketX`, `userX` and
`settleAccsX` commits. -/
def settleOkEffectsX : settle.Effects :=
  ⟨marketX, userZeroX,
    [⟨22, 44, signerKeyX, 200, 11, 5⟩, ⟨21, 43, signerKeyX, 50, 11, 5⟩]⟩

/-! ### Helper lemmas -/

theorem DexState.get_eq {m m2 : DexState} (h : DexState.get m = .ok m2) :
    m2 = m := by
  unfold DexState.get at h
  by_cases ht : m.tag = AccountTag.DexState
  · simp [ht] at h; exact h.symm
  · simp [ht] at h

theorem DexState.get_of_tag {m : DexState} (h : m.tag = AccountTag.DexState) :
    DexState.get m = .ok m := by
  simp [DexState.get, h]

theorem DexState.check_eq {m m2 : DexState} (h : DexState.check m = .ok m2) :
    m2 = m := by
  unfold DexState.check at h
  by_cases ht : m.tag = AccountTag.DexState
  · simp [ht] at h; exact h.symm
  · simp [ht] at h

theorem DexState.check_of_tag {m : DexState}
    (h : m.tag = AccountTag.DexState) : DexState.check m = .ok m := by
  simp [DexState.check, h]

theorem UserAccount.parse_eq {u u2 : UserAccount}
    (h : UserAccount.parse u = .ok u2) : u2 = u := by
  unfold UserAccount.parse at h
  by_cases ht : u.header.tag = AccountTag.UserAccount
  · simp [ht] at h; exact h.symm
  · simp [ht] at h

namespace sweep_fees

theorem sweep_check_account_key_eq {a : AccountInfo} {k : Pubkey}
    {e : DexError} {v : Unit} (h : check_account_key a k e = .ok v) :
    a.key = k := by
  unfold check_account_key at h
  by_cases hk : a.key = k
  · exact hk
  · simp [hk] at h

theorem sweep_check_accounts_ok {program_id : Pubkey} {cpa : Cpa}
    {market_state : DexState} {a : Accounts} {v : Unit}
    (h : check_accounts program_id cpa market_state a = .ok v) :
    cpa a.market.key (market_state.signer_nonce % 256) program_id =
      some a.market_signer.key ∧
    a.quote_vault.key = market_state.quote_vault ∧
    a.market_admin.key = market_state.admin := by
  unfold check_accounts at h
  split at h
  next hc => simp at h
  next market_signer hc =>
    split at h
    next e h1 => simp at h
    next v1 h1 =>
      split at h
      next e h2 => simp at h
      next v2 h2 =>
        exact ⟨by rw [hc, sweep_check_account_key_eq h1],
          sweep_check_account_key_eq h2, sweep_check_account_key_eq h⟩

end sweep_fees

namespace settle

theorem settle_check_account_key_eq {a : AccountInfo} {k : Pubkey}
    {v : Unit} (h : check_account_key a k = .ok v) : a.key = k := by
  unfold check_account_key at h
  by_cases hk : a.key = k
  · exact hk
  · simp [hk] at h

theorem settle_check_accounts_ok {program_id : Pubkey} {cpa : Cpa}
    {market_state : DexState} {a : Accounts} {v : Unit}
    (h : check_accounts program_id cpa market_state a = .ok v) :
    cpa a.market.key (market_state.signer_nonce % 256) program_id =
      some a.market_signer.key ∧
    a.base_vault.key = market_state.base_vault ∧
    a.quote_vault.key = market_state.quote_vault ∧
    a.aaob_program.key = market_state.aaob_program := by
  unfold check_accounts at h
  split at h
  next hc => simp at h
  next market_signer hc =>
    split at h
    next e h1 => simp at h
    next v1 h1 =>
      split at h
      next e h2 => simp at h
      next v2 h2 =>
        split at h
        next e h3 => simp at h
        next v3 h3 =>
          split at h
          next e h4 => simp at h
          next v4 h4 =>
            exact ⟨by rw [hc, settle_check_account_key_eq h1],
              settle_check_account_key_eq h2, settle_check_account_key_eq h3,
              settle_check_account_key_eq h4⟩

theorem load_user_account_eq {a : Accounts} {u u2 : UserAccount}
    (h : a.load_user_account u = .ok u2) : u2 = u := by
  unfold Accounts.load_user_account at h
  cases hp : UserAccount.parse u with
  | error e => rw [hp] at h; simp at h
  | ok u1 =>
    rw [hp] at h
    by_cases h1 : u1.header.owner ≠ a.user_owner.key
    · simp [h1] at h
    · by_cases h2 : u1.header.market ≠ a.market.key
      · simp [h1, h2] at h
      · simp [h1, h2] at h
        rw [← h, UserAccount.parse_eq hp]

theorem load_user_account_of {a : Accounts} {u : UserAccount}
    (ht : u.header.tag = AccountTag.UserAccount)
    (ho : u.header.owner = a.user_owner.key)
    (hm : u.header.market = a.market.key) :
    a.load_user_account u = .ok u := by
  simp [Accounts.load_user_account, UserAccount.parse, ht, ho, hm]

end settle

/-! ### Claim theorems -/

/-- Claim C2: a `SweepFees` invocation on a market whose `accumulated_fees`
field is zero performs no token transfer and leaves the market record
unchanged whatever else happens, and — when the account checks pass — it
fails with the `NoOp` error. -/
theorem claim_C2_sweep_fees_noop (program_id : Pubkey) (cpa : Cpa)
    (transfer_ok : Transfer → Bool) (accounts : List AccountInfo)
    (m : DexState) (hfees : m.accumulated_fees = 0) :
    effectsOf (sweep_fees.process program_id cpa transfer_ok accounts m) =
      ⟨m, []⟩ ∧
    (∀ a : sweep_fees.Accounts,
      sweep_fees.Accounts.parse program_id accounts = .ok a →
      m.tag = AccountTag.DexState →
      sweep_fees.check_accounts program_id cpa m a = .ok () →
      sweep_fees.process program_id cpa transfer_ok accounts m =
        .err (.Custom .NoOp) ⟨m, []⟩) := by
  constructor
  · unfold sweep_fees.process
    split
    · rfl
    next a hp =>
      split
      · rfl
      next ms hget =>
        have hms := DexState.get_eq hget
        subst hms
        split
        · rfl
        next v hchk =>
          rw [if_pos hfees]
          rfl
  · intro a hp htag hchk
    simp [sweep_fees.process, hp, DexState.get_of_tag htag, hchk, hfees]

/-- Witness for claim C2: on the concrete zero-fee market `marketZeroX`
with the valid account list `sweepAccsX`, `SweepFees` fails with `NoOp`
and the committed market record and transfer list are unchanged. -/
theorem claim_C2_sweep_fees_noop_witness :
    sweep_fees.process pidX cpaX tokX sweepAccsX marketZeroX =
      .err (.Custom .NoOp) ⟨marketZeroX, []⟩ :=
  (claim_C2_sweep_fees_noop pidX cpaX tokX sweepAccsX marketZeroX
    (by decide)).2 sweepAX (by rfl) (by decide) (by rfl)

/-- Claim C3: a `SweepFees` invocation on a market with nonzero
`accumulated_fees`, whose account checks pass and whose transfer is
accepted by the token program, issues exactly one authority-signed
transfer from the quote vault for exactly `accumulated_fees` and persists
the market record with the fee counter zeroed; an immediately repeated
`SweepFees` on the persisted record fails with `NoOp`. -/
theorem claim_C3_sweep_fees_nonzero (program_id : Pubkey) (cpa : Cpa)
    (transfer_ok : Transfer → Bool) (accounts : List AccountInfo)
    (m : DexState) (a : sweep_fees.Accounts)
    (hp : sweep_fees.Accounts.parse program_id accounts = .ok a)
    (htag : m.tag = AccountTag.DexState)
    (hchk : sweep_fees.check_accounts program_id cpa m a = .ok ())
    (hfees : m.accumulated_fees ≠ 0)
    (htok : transfer_ok ⟨a.quote_vault.key, a.destination_token_account.key,
      a.market_signer.key, m.accumulated_fees, a.market.key,
      m.signer_nonce % 256⟩ = true) :
    sweep_fees.process program_id cpa transfer_ok accounts m =
      .ok ⟨{ m with accumulated_fees := 0 },
        [⟨a.quote_vault.key, a.destination_token_account.key,
          a.market_signer.key, m.accumulated_fees, a.market.key,
          m.signer_nonce % 256⟩]⟩ ∧
    sweep_fees.process program_id cpa transfer_ok accounts
        { m with accumulated_fees := 0 } =
      .err (.Custom .NoOp) ⟨{ m with accumulated_fees := 0 }, []⟩ := by
  constructor
  · simp [sweep_fees.process, hp, DexState.get_of_tag htag, hchk, hfees, htok]
  · have htag2 : ({ m with accumulated_fees := 0 } : DexState).tag =
        AccountTag.DexState := htag
    have hchk2 : sweep_fees.check_accounts program_id cpa
        { m with accumulated_fees := 0 } a = .ok () := hchk
    simp [sweep_fees.process, hp, DexState.get_of_tag htag2, hchk2]

/-- Witness for claim C3: on `marketX` (fees 1000000) with `sweepAccsX`,
`SweepFees` transfers exactly 1000000 from the quote vault and zeroes the
counter, and a repeated call fails with `NoOp`. -/
theorem claim_C3_sweep_fees_nonzero_witness :
    sweep_fees.process pidX cpaX tokX sweepAccsX marketX =
      .ok ⟨{ marketX with accumulated_fees := 0 },
        [⟨sweepAX.quote_vault.key, sweepAX.destination_token_account.key,
          sweepAX.market_signer.key, marketX.accumulated_fees,
          sweepAX.market.key, marketX.signer_nonce % 256⟩]⟩ ∧
    sweep_fees.process pidX cpaX tokX sweepAccsX
        { marketX with accumulated_fees := 0 } =
      .err (.Custom .NoOp) ⟨{ marketX with accumulated_fees := 0 }, []⟩ :=
  claim_C3_sweep_fees_nonzero pidX cpaX tokX sweepAccsX marketX sweepAX
    (by rfl) (by decide) (by rfl) (by decide) (by rfl)

/-- Claim C4: a `Settle` invocation that passes its account checks issues
exactly two authority-signed transfers in the order quote-free then
base-free, each for the exact current free amount, to the
caller-specified destination token accounts, and zeroes both free fields
only after both transfers succeed; when the second transfer fails, the
quote transfer was invoked but nothing — neither transfer effects nor the
balance zeroing — is committed by the enclosing call. -/
theorem claim_C4_settle_two_transfers (program_id : Pubkey) (cpa : Cpa)
    (transfer_ok : Transfer → Bool) (accounts : List AccountInfo)
    (m : DexState) (u : UserAccount) (a : settle.Accounts)
    (hp : settle.Accounts.parse program_id accounts = .ok a)
    (htag : m.tag = AccountTag.DexState)
    (hload : a.load_user_account u = .ok u)
    (hchk : settle.check_accounts program_id cpa m a = .ok ()) :
    (transfer_ok ⟨m.quote_vault, a.destination_quote_account.key,
        a.market_signer.key, u.header.quote_token_free, a.market.key,
        m.signer_nonce % 256⟩ = true →
      transfer_ok ⟨m.base_vault, a.destination_base_account.key,
        a.market_signer.key, u.header.base_token_free, a.market.key,
        m.signer_nonce % 256⟩ = true →
      settle.process program_id cpa transfer_ok accounts m u =
        .ok ⟨m,
          ⟨{ u.header with quote_token_free := 0, base_token_free := 0 }⟩,
          [⟨m.quote_vault, a.destination_quote_account.key,
            a.market_signer.key, u.header.quote_token_free, a.market.key,
            m.signer_nonce % 256⟩,
          ⟨m.base_vault, a.destination_base_account.key,
            a.market_signer.key, u.header.base_token_free, a.market.key,
            m.signer_nonce % 256⟩]⟩) ∧
    (transfer_ok ⟨m.quote_vault, a.destination_quote_account.key,
        a.market_signer.key, u.header.quote_token_free, a.market.key,
        m.signer_nonce % 256⟩ = true →
      transfer_ok ⟨m.base_vault, a.destination_base_account.key,
        a.market_signer.key, u.header.base_token_free, a.market.key,
        m.signer_nonce % 256⟩ = false →
      settle.process program_id cpa transfer_ok accounts m u =
        .err .TransferFailed
          ⟨m, u, [⟨m.quote_vault, a.destination_quote_account.key,
            a.market_signer.key, u.header.quote_token_free, a.market.key,
            m.signer_nonce % 256⟩]⟩ ∧
      committed ⟨m, u, []⟩
          (settle.process program_id cpa transfer_ok accounts m u) =
        ⟨m, u, []⟩) := by
  constructor
  · intro htq htb
    simp [settle.process, hp, DexState.check_of_tag htag, hload, hchk,
      htq, htb]
  · intro htq htb
    have hrun : settle.process program_id cpa transfer_ok accounts m u =
        .err .TransferFailed
          ⟨m, u, [⟨m.quote_vault, a.destination_quote_account.key,
            a.market_signer.key, u.header.quote_token_free, a.market.key,
            m.signer_nonce % 256⟩]⟩ := by
      simp [settle.process, hp, DexState.check_of_tag htag, hload, hchk,
        htq, htb]
    exact ⟨hrun, by rw [hrun]; rfl⟩

/-- Witness for claim C4: on `marketX`, `userX` (base free 50, quote free
200) and `settleAccsX`, with every transfer accepted, `Settle` issues the
quote transfer for 200 then the base transfer for 50 and zeroes both
free fields. -/
theorem claim_C4_settle_two_transfers_witness :
    settle.process pidX cpaX tokX settleAccsX marketX userX =
      .ok ⟨marketX,
        ⟨{ userX.header with quote_token_free := 0, base_token_free := 0 }⟩,
        [⟨marketX.quote_vault, settleAX.destination_quote_account.key,
          settleAX.market_signer.key, userX.header.quote_token_free,
          settleAX.market.key, marketX.signer_nonce % 256⟩,
        ⟨marketX.base_vault, settleAX.destination_base_account.key,
          settleAX.market_signer.key, userX.header.base_token_free,
          settleAX.market.key, marketX.signer_nonce % 256⟩]⟩ :=
  (claim_C4_settle_two_transfers pidX cpaX tokX settleAccsX marketX userX
    settleAX (by rfl) (by decide) (by rfl) (by rfl)).1 (by rfl) (by rfl)

/-- Claim C5: `Settle` is idempotent at zero — on a user record whose free
balances are both zero (and whose checks and transfers go through), the
call invokes two transfers of zero units, leaves the persisted market and
user records exactly as they were, and a second consecutive `Settle`
returns the identical outcome. -/
theorem claim_C5_settle_idempotent_at_zero (program_id : Pubkey) (cpa : Cpa)
    (transfer_ok : Transfer → Bool) (accounts : List AccountInfo)
    (m : DexState) (u : UserAccount) (a : settle.Accounts)
    (hp : settle.Accounts.parse program_id accounts = .ok a)
    (htag : m.tag = AccountTag.DexState)
    (hload : a.load_user_account u = .ok u)
    (hchk : settle.check_accounts program_id cpa m a = .ok ())
    (hq : u.header.quote_token_free = 0)
    (hb : u.header.base_token_free = 0)
    (htq : transfer_ok ⟨m.quote_vault, a.destination_quote_account.key,
      a.market_signer.key, 0, a.market.key, m.signer_nonce % 256⟩ = true)
    (htb : transfer_ok ⟨m.base_vault, a.destination_base_account.key,
      a.market_signer.key, 0, a.market.key, m.signer_nonce % 256⟩ = true) :
    settle.process program_id cpa transfer_ok accounts m u =
      .ok ⟨m, u,
        [⟨m.quote_vault, a.destination_quote_account.key,
          a.market_signer.key, 0, a.market.key, m.signer_nonce % 256⟩,
        ⟨m.base_vault, a.destination_base_account.key,
          a.market_signer.key, 0, a.market.key, m.signer_nonce % 256⟩]⟩ ∧
    (∀ e : settle.Effects,
      settle.process program_id cpa transfer_ok accounts m u = .ok e →
      settle.process program_id cpa transfer_ok accounts e.market e.user =
        settle.process program_id cpa transfer_ok accounts m u) := by
  have huser :
      UserAccount.mk { u.header with quote_token_free := 0, base_token_free := 0 } = u := by
    obtain ⟨⟨t, o, mk, bf, bl, qf, ql, no⟩⟩ := u
    simp only at hq hb
    simp [hq, hb]
  have hrun : settle.process program_id cpa transfer_ok accounts m u =
      .ok ⟨m, u,
        [⟨m.quote_vault, a.destination_quote_account.key,
          a.market_signer.key, 0, a.market.key, m.signer_nonce % 256⟩,
        ⟨m.base_vault, a.destination_base_account.key,
          a.market_signer.key, 0, a.market.key, m.signer_nonce % 256⟩]⟩ := by
    simp [settle.process, hp, DexState.check_of_tag htag, hload, hchk,
      hq, hb, htq, htb, huser]
  refine ⟨hrun, ?_⟩
  intro e he
  rw [hrun] at he
  injection he with he2
  subst he2
  rfl

/-- Witness for claim C5: on `marketX` and the already-settled user record
`userZeroX`, `Settle` transfers 0 quote and 0 base, leaves the records
unchanged, and a second `Settle` returns the identical outcome. -/
theorem claim_C5_settle_idempotent_at_zero_witness :
    settle.process pidX cpaX tokX settleAccsX marketX userZeroX =
      .ok ⟨marketX, userZeroX,
        [⟨marketX.quote_vault, settleAX.destination_quote_account.key,
          settleAX.market_signer.key, 0, settleAX.market.key,
          marketX.signer_nonce % 256⟩,
        ⟨marketX.base_vault, settleAX.destination_base_account.key,
          settleAX.market_signer.key, 0, settleAX.market.key,
          marketX.signer_nonce % 256⟩]⟩ :=
  (claim_C5_settle_idempotent_at_zero pidX cpaX tokX settleAccsX marketX
    userZeroX settleAX (by rfl) (by decide) (by rfl) (by rfl) (by decide)
    (by decide) (by rfl) (by rfl)).1

/-- Claim C6: a `Settle` invocation whose user record stores an owner key
different from the supplied owner wallet, or a market back-reference
different from the supplied market account, fails with `InvalidArgument`
with no transfer invoked and no account mutated. -/
theorem claim_C6_settle_wrong_owner_or_market (program_id : Pubkey)
    (cpa : Cpa) (transfer_ok : Transfer → Bool) (accounts : List AccountInfo)
    (m : DexState) (u : UserAccount) (a : settle.Accounts)
    (hp : settle.Accounts.parse program_id accounts = .ok a)
    (htag : m.tag = AccountTag.DexState)
    (hutag : u.header.tag = AccountTag.UserAccount)
    (hmis : u.header.owner ≠ a.user_owner.key ∨
      u.header.market ≠ a.market.key) :
    settle.process program_id cpa transfer_ok accounts m u =
      .err .InvalidArgument ⟨m, u, []⟩ := by
  have hload : a.load_user_account u = .error .InvalidArgument := by
    unfold settle.Accounts.load_user_account
    rcases hmis with h | h
    · simp [UserAccount.parse, hutag, h]
    · by_cases ho : u.header.owner = a.user_owner.key
      · simp [UserAccount.parse, hutag, ho, h]
      · simp [UserAccount.parse, hutag, ho]
  simp [settle.process, hp, DexState.check_of_tag htag, hload]

/-- Witness for claim C6: on the concrete record `userWrongOwnerX` (stored
owner 43, supplied owner wallet 42), `Settle` fails with
`InvalidArgument` and no effects. -/
theorem claim_C6_settle_wrong_owner_or_market_witness :
    settle.process pidX cpaX tokX settleAccsX marketX userWrongOwnerX =
      .err .InvalidArgument ⟨marketX, userWrongOwnerX, []⟩ :=
  claim_C6_settle_wrong_owner_or_market pidX cpaX tokX settleAccsX marketX
    userWrongOwnerX settleAX (by rfl) (by decide) (by decide)
    (Or.inl (by decide))

/-- Claim C7: in both handlers every validation check completes before any
mutation of persisted account state or any transfer invocation — a run
that exits with any surfaced check error (anything but an external
transfer failure), or that panics, has performed no account write and
invoked no transfer; and even a failed transfer leaves the market and
user records unwritten. -/
theorem claim_C7_checks_before_effects (program_id : Pubkey) (cpa : Cpa)
    (transfer_ok : Transfer → Bool)
    (sweep_accounts settle_accounts : List AccountInfo)
    (m : DexState) (u : UserAccount) :
    (∀ (e : ProgramError) (s : sweep_fees.Effects),
      sweep_fees.process program_id cpa transfer_ok sweep_accounts m =
        .err e s → s = ⟨m, []⟩) ∧
    (∀ s : sweep_fees.Effects,
      sweep_fees.process program_id cpa transfer_ok sweep_accounts m ≠
        .panicked s) ∧
    (∀ (e : ProgramError) (s : settle.Effects),
      settle.process program_id cpa transfer_ok settle_accounts m u =
        .err e s → e ≠ .TransferFailed → s = ⟨m, u, []⟩) ∧
    (∀ s : settle.Effects,
      settle.process program_id cpa transfer_ok settle_accounts m u =
        .panicked s → s = ⟨m, u, []⟩) ∧
    (∀ s : settle.Effects,
      settle.process program_id cpa transfer_ok settle_accounts m u =
        .err .TransferFailed s → s.market = m ∧ s.user = u) := by
  refine ⟨?_, ?_, ?_, ?_, ?_⟩
  · intro e s h
    unfold sweep_fees.process at h
    dsimp only at h
    split at h
    · simp at h; exact h.2.symm
    · split at h
      · simp at h; exact h.2.symm
      · split at h
        · simp at h; exact h.2.symm
        · split at h
          · simp at h; exact h.2.symm
          · split at h
            · simp at h
            · simp at h; exact h.2.symm
  · intro s h
    unfold sweep_fees.process at h
    dsimp only at h
    split at h
    · simp at h
    · split at h
      · simp at h
      · split at h
        · simp at h
        · split at h
          · simp at h
          · split at h
            · simp at h
            · simp at h
  · intro e s h hne
    unfold settle.process at h
    dsimp only at h
    split at h
    · simp at h
    · simp at h; exact h.2.symm
    · split at h
      · simp at h; exact h.2.symm
      · split at h
        · simp at h; exact h.2.symm
        · split at h
          · simp at h
          · simp at h
          · split at h
            · split at h
              · simp at h
              · simp at h
                exact absurd h.1.symm hne
            · simp at h
              exact absurd h.1.symm hne
  · intro s h
    unfold settle.process at h
    dsimp only at h
    split at h
    · simp at h; exact h.symm
    · simp at h
    · split at h
      · simp at h
      next ms hcheck =>
        split at h
        · simp at h
        · split at h
          · simp at h
            rw [← h, DexState.check_eq hcheck]
          · simp at h
            rw [← h, DexState.check_eq hcheck]
          · split at h
            · split at h
              · simp at h
              · simp at h
            · simp at h
  · intro s h
    unfold settle.process at h
    dsimp only at h
    split at h
    · simp at h
    · simp at h
      rw [← h.2]; exact ⟨rfl, rfl⟩
    · split at h
      · simp at h
        rw [← h.2]; exact ⟨rfl, rfl⟩
      next ms hcheck =>
        split at h
        · simp at h
          rw [← h.2]; exact ⟨rfl, rfl⟩
        · split at h
          · simp at h
          · simp at h
          · split at h
            · split at h
              · simp at h
              · simp at h
                rw [← h]
                exact ⟨DexState.check_eq hcheck, rfl⟩
            · simp at h
              rw [← h]
              exact ⟨DexState.check_eq hcheck, rfl⟩

/-- Witness for claim C7: a concrete `Settle` run whose first failing
check is the owner validation exits with `InvalidArgument` and empty
effects. -/
theorem claim_C7_checks_before_effects_witness :
    settle.process pidX cpaX tokX settleAccsX marketX userWrongOwnerX =
      .err .InvalidArgument ⟨marketX, userWrongOwnerX, []⟩ ∧
    (⟨marketX, userWrongOwnerX, []⟩ : settle.Effects) =
      ⟨marketX, userWrongOwnerX, []⟩ :=
  ⟨by decide,
    (claim_C7_checks_before_effects pidX cpaX tokX sweepAccsX settleAccsX
      marketX userWrongOwnerX).2.2.1 .InvalidArgument
      ⟨marketX, userWrongOwnerX, []⟩ (by decide) (by decide)⟩

/-- Claim C1: both privileged handlers (`SweepFees` and `Settle`)
recompute the authority address from (market address, stored bump,
program identity) and fail before performing any effect unless the
recomputed address equals the supplied market-signer account; for
accepted pairs, re-derivation (the same pure function) reproduces that
authority address. -/
theorem claim_C1_authority_rederivation (program_id : Pubkey) (cpa : Cpa)
    (transfer_ok : Transfer → Bool)
    (sweep_accounts settle_accounts : List AccountInfo)
    (m : DexState) (u : UserAccount) :
    (∀ (a : sweep_fees.Accounts),
      sweep_fees.Accounts.parse program_id sweep_accounts = .ok a →
      effectsOf (sweep_fees.process program_id cpa transfer_ok
        sweep_accounts m) ≠ ⟨m, []⟩ →
      cpa a.market.key (m.signer_nonce % 256) program_id =
        some a.market_signer.key) ∧
    (∀ (a : settle.Accounts),
      settle.Accounts.parse program_id settle_accounts = .ok a →
      effectsOf (settle.process program_id cpa transfer_ok settle_accounts
        m u) ≠ ⟨m, u, []⟩ →
      cpa a.market.key (m.signer_nonce % 256) program_id =
        some a.market_signer.key) := by
  constructor
  · intro a hp hne
    unfold sweep_fees.process at hne
    rw [hp] at hne
    dsimp only at hne
    cases hget : DexState.get m with
    | error e =>
      rw [hget] at hne
      exact absurd rfl hne
    | ok ms =>
      rw [hget] at hne
      dsimp only at hne
      have hms := DexState.get_eq hget
      subst hms
      cases hchk : sweep_fees.check_accounts program_id cpa ms a with
      | error e =>
        rw [hchk] at hne
        exact absurd rfl hne
      | ok v =>
        exact (sweep_fees.sweep_check_accounts_ok hchk).1
  · intro a hp hne
    unfold settle.process at hne
    rw [hp] at hne
    dsimp only at hne
    cases hcheck : DexState.check m with
    | error e =>
      rw [hcheck] at hne
      exact absurd rfl hne
    | ok ms =>
      rw [hcheck] at hne
      dsimp only at hne
      have hms := DexState.check_eq hcheck
      subst hms
      cases hload : a.load_user_account u with
      | error e =>
        rw [hload] at hne
        exact absurd rfl hne
      | ok ua =>
        rw [hload] at hne
        dsimp only at hne
        cases hchk : settle.check_accounts program_id cpa ms a with
        | err e =>
          rw [hchk] at hne
          exact absurd rfl hne
        | panicked =>
          rw [hchk] at hne
          exact absurd rfl hne
        | ok v =>
          exact (settle.settle_check_accounts_ok hchk).1

/-- Witness for claim C1: on the concrete accepted pair (`marketX`, bump
5), re-derivation with `cpaX` reproduces the supplied market-signer
address. -/
theorem claim_C1_authority_rederivation_witness :
    cpaX sweepAX.market.key (marketX.signer_nonce % 256) pidX =
      some sweepAX.market_signer.key :=
  (claim_C1_authority_rederivation pidX cpaX tokX sweepAccsX settleAccsX
    marketX userX).1 sweepAX (by rfl) (by decide)

/-- Claim C9 (code bug): a `Settle` invocation whose user-owner signer
flag is absent, or whose supplied SPL token program account is wrong,
panics — the run aborts via `unwrap()` with no surfaced error code,
instead of returning `MissingRequiredSignature` respectively an
ownership error as the specification requires. -/
theorem claim_C9_settle_aborts_without_code :
    settle.process pidX cpaX tokX settleAccsNoSignerX marketX userX =
      .panicked ⟨marketX, userX, []⟩ ∧
    settle.process pidX cpaX tokX settleAccsBadSplX marketX userX =
      .panicked ⟨marketX, userX, []⟩ := by decide

/-- Claim C10: a successful `Settle` leaves the market record unchanged
(the handler serializes the deserialized state back unmodified) and the
only persisted user-record change is zeroing the quote-free and
base-free fields; owner, market back-reference, locked balances and
open-order bookkeeping are untouched. -/
theorem claim_C10_settle_frame (program_id : Pubkey) (cpa : Cpa)
    (transfer_ok : Transfer → Bool) (accounts : List AccountInfo)
    (m : DexState) (u : UserAccount) (e : settle.Effects)
    (h : settle.process program_id cpa transfer_ok accounts m u = .ok e) :
    e.market = m ∧
    e.user.header.tag = u.header.tag ∧
    e.user.header.owner = u.header.owner ∧
    e.user.header.market = u.header.market ∧
    e.user.header.base_token_locked = u.header.base_token_locked ∧
    e.user.header.quote_token_locked = u.header.quote_token_locked ∧
    e.user.header.number_of_orders = u.header.number_of_orders ∧
    e.user.header.quote_token_free = 0 ∧
    e.user.header.base_token_free = 0 := by
  unfold settle.process at h
  dsimp only at h
  split at h
  · simp at h
  · simp at h
  · split at h
    · simp at h
    next ms hcheck =>
      split at h
      · simp at h
      next ua hload =>
        split at h
        · simp at h
        · simp at h
        · split at h
          · split at h
            · simp at h
              have hms := DexState.check_eq hcheck
              have hua := settle.load_user_account_eq hload
              subst hms
              subst hua
              rw [← h]
              exact ⟨rfl, rfl, rfl, rfl, rfl, rfl, rfl, rfl, rfl⟩
            · simp at h
          · simp at h

/-- Witness for claim C10: the concrete successful `Settle` run on
`marketX` and `userX` commits `settleOkEffectsX`, whose market record is
unchanged and whose user record differs only in the zeroed free
fields. -/
theorem claim_C10_settle_frame_witness :
    settleOkEffectsX.market = marketX ∧
    settleOkEffectsX.user.header.tag = userX.header.tag ∧
    settleOkEffectsX.user.header.owner = userX.header.owner ∧
    settleOkEffectsX.user.header.market = userX.header.market ∧
    settleOkEffectsX.user.header.base_token_locked =
      userX.header.base_token_locked ∧
    settleOkEffectsX.user.header.quote_token_locked =
      userX.header.quote_token_locked ∧
    settleOkEffectsX.user.header.number_of_orders =
      userX.header.number_of_orders ∧
    settleOkEffectsX.user.header.quote_token_free = 0 ∧
    settleOkEffectsX.user.header.base_token_free = 0 :=
  claim_C10_settle_frame pidX cpaX tokX settleAccsX marketX userX
    settleOkEffectsX (by decide)

/-- Claim C8 (code bug): `DexInstruction::serialize` emits the variant's
discriminant as an 8-byte little-endian tag followed by the payload, and
the settle, sweep-fees, close-account and close-market builders all
carry an empty payload — but the `close_market` builder serializes the
`CloseAccount` variant, so its wire data is identical to
`close_account`'s and does not carry `CloseMarket`'s own discriminant
8. -/
theorem claim_C8_close_market_tag_collision :
    DexInstruction.serialize DexInstruction.Settle [] = u64_le_bytes 4 ∧
    DexInstruction.serialize DexInstruction.SweepFees [] = u64_le_bytes 6 ∧
    DexInstruction.serialize DexInstruction.CloseAccount [] =
      u64_le_bytes 7 ∧
    DexInstruction.serialize DexInstruction.CloseMarket [] =
      u64_le_bytes 8 ∧
    (instruction.settle 7 11 12 21 22 41 42 43 44).data =
      DexInstruction.serialize DexInstruction.Settle [] ∧
    (instruction.sweep_fees 7 11 12 25 22 31).data =
      DexInstruction.serialize DexInstruction.SweepFees [] ∧
    (instruction.close_account 7 41 42 45).data =
      DexInstruction.serialize DexInstruction.CloseAccount [] ∧
    (instruction.close_market 7 11 21 22 12 23 24 51 52 53 25 45).data =
      (instruction.close_account 7 41 42 45).data ∧
    (instruction.close_market 7 11 21 22 12 23 24 51 52 53 25 45).data ≠
      DexInstruction.serialize DexInstruction.CloseMarket [] := by decide

end Dex
